import Mathlib

/-!
Verification of the clipper pipeline (src/streamlit_app.py).

The embedding models the Python source shallowly:

* A Python float value is modeled by `PyFloat`: NaN, a signed infinity, or a
  finite value carried as an exact rational.  Finite decimal literals are
  given their exact rational value; IEEE-754 rounding of decimal literals and
  the overflow of enormous literals to infinity are abstracted away (none of
  the verified statements depends on them).
* The host-language builtins used by the source, `float(str)` and
  `str.split(sep)` and `str.replace(a, b)` and `max(a, b)`, are modeled by
  executable Lean functions over `List Char` / `PyFloat` following the
  documented CPython behavior (ASCII whitespace stripping, optional sign,
  inf/infinity/nan spellings, decimal mantissa with optional exponent and
  digit-group underscores, comparisons on NaN are false, `max` keeps the
  first argument unless the second is strictly greater).
* External collaborators of the pipeline (yt-dlp, ffmpeg, the filesystem)
  are modeled by an oracle environment `Env`; the pipeline function records
  every externally visible action in an event trace and tracks the set of
  files present in its scratch workspace.
-/

/-- Model of a Python float value: NaN, a signed infinity, or an exact
finite rational. -/
inductive PyFloat where
  | finite (q : ℚ)
  | posInf
  | negInf
  | nan
deriving DecidableEq

/-- Python float addition (IEEE-754 special-value rules, exact on finite
values). -/
def pyAdd : PyFloat → PyFloat → PyFloat
  | .nan, _ => .nan
  | _, .nan => .nan
  | .posInf, .negInf => .nan
  | .negInf, .posInf => .nan
  | .posInf, _ => .posInf
  | _, .posInf => .posInf
  | .negInf, _ => .negInf
  | _, .negInf => .negInf
  | .finite a, .finite b => .finite (a + b)

/-- Python float negation. -/
def pyNeg : PyFloat → PyFloat
  | .finite q => .finite (-q)
  | .posInf => .negInf
  | .negInf => .posInf
  | .nan => .nan

/-- Python float subtraction. -/
def pySub (a b : PyFloat) : PyFloat := pyAdd a (pyNeg b)

/-- Python float multiplication (IEEE-754 special-value rules, exact on
finite values). -/
def pyMul : PyFloat → PyFloat → PyFloat
  | .nan, _ => .nan
  | _, .nan => .nan
  | .finite a, .finite b => .finite (a * b)
  | .finite a, .posInf => if 0 < a then .posInf else if a < 0 then .negInf else .nan
  | .finite a, .negInf => if 0 < a then .negInf else if a < 0 then .posInf else .nan
  | .posInf, .finite b => if 0 < b then .posInf else if b < 0 then .negInf else .nan
  | .negInf, .finite b => if 0 < b then .negInf else if b < 0 then .posInf else .nan
  | .posInf, .posInf => .posInf
  | .posInf, .negInf => .negInf
  | .negInf, .posInf => .negInf
  | .negInf, .negInf => .posInf

/-- Python float comparison `a <= b`; any comparison against NaN is false. -/
def pyLe : PyFloat → PyFloat → Bool
  | .nan, _ => false
  | _, .nan => false
  | .negInf, _ => true
  | _, .posInf => true
  | .posInf, _ => false
  | .finite _, .negInf => false
  | .finite a, .finite b => decide (a ≤ b)

/-- Python float comparison `a < b`; any comparison against NaN is false. -/
def pyLt : PyFloat → PyFloat → Bool
  | .nan, _ => false
  | _, .nan => false
  | .negInf, .negInf => false
  | .negInf, _ => true
  | _, .negInf => false
  | .posInf, _ => false
  | .finite _, .posInf => true
  | .finite a, .finite b => decide (a < b)

/-- Python `max(a, b)`: keeps `a` unless `b` compares strictly greater, so
`max(0, nan) = 0`. -/
def pyMax (a b : PyFloat) : PyFloat := if pyLt a b then b else a

/-- ASCII whitespace accepted (and stripped) by Python `float(str)`. -/
def isPyWs (c : Char) : Bool :=
  c = ' ' || c = '\t' || c = '\n' || c = '\r' || c = '\x0b' || c = '\x0c'

/-- Strip leading and trailing whitespace, as Python `float(str)` does. -/
def pyStrip (cs : List Char) : List Char :=
  ((cs.dropWhile isPyWs).reverse.dropWhile isPyWs).reverse

/-- ASCII decimal digit test. -/
def isAsciiDigit (c : Char) : Bool := decide ('0' ≤ c) && decide (c ≤ '9')

/-- Numeric value of an ASCII digit character. -/
def digitVal (c : Char) : Nat := c.toNat - '0'.toNat

/-- Value of a list of ASCII digit characters read in base 10. -/
def digitsToNat (cs : List Char) : Nat :=
  cs.foldl (fun n c => n * 10 + digitVal c) 0

/-- Python numeric literals allow underscores only between two digits. -/
def underscoresOk : List Char → Bool
  | [] => true
  | '_' :: _ => false
  | [_] => true
  | a :: '_' :: b :: rest =>
      isAsciiDigit a && isAsciiDigit b && underscoresOk (b :: rest)
  | _ :: rest => underscoresOk rest

/-- Split a numeric token at the first `e`/`E`, if any (mantissa, exponent
part). -/
def findExpSplit : List Char → List Char × Option (List Char)
  | [] => ([], none)
  | c :: cs =>
      if c = 'e' ∨ c = 'E' then ([], some cs)
      else
        let r := findExpSplit cs
        (c :: r.1, r.2)

/-- Split a mantissa at the first `.`, if any (integer part, fraction
part). -/
def findDotSplit : List Char → List Char × Option (List Char)
  | [] => ([], none)
  | c :: cs =>
      if c = '.' then ([], some cs)
      else
        let r := findDotSplit cs
        (c :: r.1, r.2)

/-- Parse the exponent part of a numeric token: optional sign then at least
one digit. -/
def parseExp : List Char → Option ℤ
  | [] => none
  | '+' :: ds =>
      if ds ≠ [] ∧ ds.all isAsciiDigit then some (digitsToNat ds) else none
  | '-' :: ds =>
      if ds ≠ [] ∧ ds.all isAsciiDigit then some (-(digitsToNat ds : ℤ)) else none
  | ds =>
      if ds.all isAsciiDigit then some (digitsToNat ds) else none

/-- Integer power of ten as a rational. -/
def pow10 (e : ℤ) : ℚ :=
  if 0 ≤ e then ((10 : ℚ) ^ e.toNat) else ((10 : ℚ) ^ (-e).toNat)⁻¹

/-- Parse an unsigned Python decimal float token (mantissa with optional
fraction, optional exponent, digit-group underscores) to its exact rational
value. -/
def parseDecimal (cs0 : List Char) : Option ℚ :=
  if cs0 = [] then none
  else if !underscoresOk cs0 then none
  else
    let cs := cs0.filter (fun c => c ≠ '_')
    let me := findExpSplit cs
    let expVal : Option ℤ :=
      match me.2 with
      | none => some 0
      | some ep => parseExp ep
    match expVal with
    | none => none
    | some e =>
        let ifr := findDotSplit me.1
        let ip := ifr.1
        let fp := ifr.2.getD []
        if ip.all isAsciiDigit ∧ fp.all isAsciiDigit ∧ ip ++ fp ≠ [] then
          some ((digitsToNat (ip ++ fp) : ℚ) * pow10 (e - fp.length))
        else none

/-- Model of Python `float(str)`: strip whitespace, optional sign, then an
`inf`/`infinity`/`nan` spelling (case-insensitive) or a decimal token.
Returns `none` where CPython raises `ValueError`. -/
def pyFloatOfString (cs0 : List Char) : Option PyFloat :=
  let cs := pyStrip cs0
  match cs with
  | [] => none
  | _ =>
      let sr : Bool × List Char :=
        match cs with
        | '+' :: r => (false, r)
        | '-' :: r => (true, r)
        | r => (false, r)
      let neg := sr.1
      let low := sr.2.map Char.toLower
      if low = ['i', 'n', 'f'] ∨ low = ['i', 'n', 'f', 'i', 'n', 'i', 't', 'y'] then
        some (if neg then .negInf else .posInf)
      else if low = ['n', 'a', 'n'] then
        some .nan
      else
        match parseDecimal sr.2 with
        | some q => some (.finite (if neg then -q else q))
        | none => none

/-- Model of Python `str.split(sep)` for a one-character separator: keeps
empty pieces, and splitting the empty string yields one empty piece. -/
def pySplit (sep : Char) : List Char → List (List Char)
  | [] => [[]]
  | c :: cs =>
      if c = sep then [] :: pySplit sep cs
      else
        match pySplit sep cs with
        | [] => [[c]]
        | p :: ps => (c :: p) :: ps

/-- Python exception classes distinguished by the source: `parse_time` and
the range check raise `ValueError`; every other raise site uses the bare
`Exception` class. -/
inductive PyError where
  | valueError (msg : String)
  | exception (msg : String)
deriving DecidableEq

deriving instance DecidableEq for Except

/-- Model of Python `list(map(float, parts))`: evaluates left to right and
fails as soon as one conversion fails. -/
def mapFloats : List (List Char) → Option (List PyFloat)
  | [] => some []
  | s :: ss =>
      match pyFloatOfString s with
      | none => none
      | some v => (mapFloats ss).map (fun vs => v :: vs)

/-- `parse_time` from src/streamlit_app.py lines 8-21: split on `:`, convert
every part with `float`, then combine 1, 2 or 3 parts as seconds,
minutes:seconds, hours:minutes:seconds; any other part count raises
`ValueError`.  (The exact `ValueError` message text of a failed `float`
call is abbreviated.) -/
def parse_time (s : String) : Except PyError PyFloat :=
  let parts := pySplit ':' s.data
  match mapFloats parts with
  | none => .error (.valueError "could not convert string to float")
  | some ps =>
      match ps with
      | [p0] => .ok p0
      | [p0, p1] => .ok (pyAdd (pyMul p0 (.finite 60)) p1)
      | [p0, p1, p2] =>
          .ok (pyAdd (pyAdd (pyMul p0 (.finite 3600)) (pyMul p1 (.finite 60))) p2)
      | _ => .error (.valueError ("Invalid time format: " ++ s ++ ". Use hh:mm:ss, mm:ss, or ss."))

theorem strData_append (s t : String) : (s ++ t).data = s.data ++ t.data := by
  cases s; cases t; rfl

theorem string_data_inj {s t : String} (h : s.data = t.data) : s = t := by
  cases s
  cases t
  exact congrArg String.mk h

theorem pySplit_ne_nil (sep : Char) (cs : List Char) : pySplit sep cs ≠ [] := by
  cases cs with
  | nil => simp [pySplit]
  | cons c cs =>
    unfold pySplit
    by_cases h : c = sep
    · simp [h]
    · simp only [h, if_false]
      cases pySplit sep cs <;> simp

theorem pySplit_no_sep {sep : Char} {cs : List Char} (h : sep ∉ cs) :
    pySplit sep cs = [cs] := by
  induction cs with
  | nil => rfl
  | cons c cs ih =>
    rw [List.mem_cons, not_or] at h
    have hc : ¬ c = sep := fun e => h.1 e.symm
    simp [pySplit, hc, ih h.2]

theorem pySplit_append {sep : Char} {a : List Char} (b : List Char) (ha : sep ∉ a) :
    pySplit sep (a ++ sep :: b) = a :: pySplit sep b := by
  induction a with
  | nil => simp [pySplit]
  | cons c cs ih =>
    rw [List.mem_cons, not_or] at ha
    have hc : ¬ c = sep := fun e => ha.1 e.symm
    show pySplit sep (c :: (cs ++ sep :: b)) = (c :: cs) :: pySplit sep b
    simp only [pySplit]
    rw [if_neg hc, ih ha.2]

theorem mapFloats_eq_none_iff (l : List (List Char)) :
    mapFloats l = none ↔ ∃ s ∈ l, pyFloatOfString s = none := by
  induction l with
  | nil => simp [mapFloats]
  | cons s ss ih =>
    simp only [mapFloats]
    cases h : pyFloatOfString s with
    | none =>
      simp only [h]
      constructor
      · intro _
        exact ⟨s, List.mem_cons_self s ss, h⟩
      · intro _
        trivial
    | some v =>
      rw [Option.map_eq_none', ih]
      constructor
      · rintro ⟨x, hx, hnone⟩
        exact ⟨x, List.mem_cons_of_mem s hx, hnone⟩
      · rintro ⟨x, hx, hnone⟩
        rcases List.mem_cons.mp hx with rfl | hx'
        · rw [h] at hnone
          cases hnone
        · exact ⟨x, hx', hnone⟩

theorem mapFloats_forall_some {l : List (List Char)} {ps : List PyFloat}
    (h : mapFloats l = some ps) : ∀ s ∈ l, pyFloatOfString s ≠ none := by
  intro s hs hnone
  have hn : mapFloats l = none := (mapFloats_eq_none_iff l).mpr ⟨s, hs, hnone⟩
  rw [h] at hn
  cases hn

theorem mapFloats_length {l : List (List Char)} {ps : List PyFloat}
    (h : mapFloats l = some ps) : ps.length = l.length := by
  induction l generalizing ps with
  | nil =>
    simp only [mapFloats, Option.some.injEq] at h
    subst h
    rfl
  | cons s ss ih =>
    simp only [mapFloats] at h
    cases hf : pyFloatOfString s with
    | none =>
      rw [hf] at h
      cases h
    | some v =>
      rw [hf] at h
      cases hm : mapFloats ss with
      | none =>
        rw [hm] at h
        cases h
      | some vs =>
        rw [hm] at h
        simp only [Option.map_some', Option.some.injEq] at h
        subst h
        simp [ih hm]

/-- C1: for every valid time string of shape SS, MM:SS or HH:MM:SS whose
colon-delimited components convert to finite reals, `parse_time` returns
the linear combination H*3600 + M*60 + S of the component values; in
particular parse("1:23") = 83.0, parse("2:30:45") = 9045.0 and
parse("90") = 90.0. -/
theorem C1_parse_time_linear_combination
    (a b c : String) (x y z : ℚ)
    (hxa : pyFloatOfString a.data = some (.finite x))
    (hyb : pyFloatOfString b.data = some (.finite y))
    (hzc : pyFloatOfString c.data = some (.finite z))
    (hna : ':' ∉ a.data) (hnb : ':' ∉ b.data) (hnc : ':' ∉ c.data) :
    parse_time a = .ok (.finite x) ∧
    parse_time (a ++ ":" ++ b) = .ok (.finite (x * 60 + y)) ∧
    parse_time (a ++ ":" ++ b ++ ":" ++ c) = .ok (.finite (x * 3600 + y * 60 + z)) ∧
    parse_time "1:23" = .ok (.finite 83) ∧
    parse_time "2:30:45" = .ok (.finite 9045) ∧
    parse_time "90" = .ok (.finite 90) := by
  have hd2 : (a ++ ":" ++ b).data = a.data ++ ':' :: b.data := by
    rw [strData_append, strData_append]
    simp
  have hd3 : (a ++ ":" ++ b ++ ":" ++ c).data = a.data ++ ':' :: (b.data ++ ':' :: c.data) := by
    rw [strData_append, strData_append, strData_append, strData_append]
    simp
  refine ⟨?_, ?_, ?_, by with_unfolding_all rfl, by with_unfolding_all rfl,
    by with_unfolding_all rfl⟩
  · simp only [parse_time, pySplit_no_sep hna, mapFloats, hxa, Option.map_some']
  · simp only [parse_time, hd2, pySplit_append b.data hna, pySplit_no_sep hnb,
      mapFloats, hxa, hyb, Option.map_some']
    simp [pyMul, pyAdd]
  · simp only [parse_time, hd3, pySplit_append (b.data ++ ':' :: c.data) hna,
      pySplit_append c.data hnb, pySplit_no_sep hnc,
      mapFloats, hxa, hyb, hzc, Option.map_some']
    simp [pyMul, pyAdd]

/-- Witness for C1: the hypotheses hold at the concrete components
2, 30, 45, and the theorem yields parse("2:30:45") = 9045. -/
theorem C1_witness :
    parse_time ("2" ++ ":" ++ "30" ++ ":" ++ "45") = .ok (.finite (2 * 3600 + 30 * 60 + 45)) :=
  (C1_parse_time_linear_combination "2" "30" "45" 2 30 45
    (by with_unfolding_all rfl) (by with_unfolding_all rfl) (by with_unfolding_all rfl)
    (by decide) (by decide) (by decide)).2.2.1

/-- Counterexample to C2 as stated: an input with a negative segment is
claimed to be a parse error, but `parse_time "-5"` succeeds and returns
-5.0 (Python `float` accepts negative segments). -/
theorem C2_counterexample : parse_time "-5" = .ok (.finite (-5)) := by
  with_unfolding_all rfl

/-- C2 (amended): `parse_time` fails, always with the ValueError class and
never another error class, exactly when splitting the input on `:` yields
four or more segments or some segment is not convertible by the host float
conversion (negative, infinite and NaN segments are accepted); on every
other input it succeeds. -/
theorem C2_parse_time_error_iff (s : String) :
    ((∃ e, parse_time s = .error e) ↔
      4 ≤ (pySplit ':' s.data).length ∨
        ∃ seg ∈ pySplit ':' s.data, pyFloatOfString seg = none) ∧
    ∀ e, parse_time s = .error e → ∃ msg, e = .valueError msg := by
  have hne := pySplit_ne_nil ':' s.data
  cases hm : mapFloats (pySplit ':' s.data) with
  | none =>
    refine ⟨⟨fun _ => Or.inr ((mapFloats_eq_none_iff _).mp hm), fun _ => ?_⟩, fun e he => ?_⟩
    · exact ⟨.valueError "could not convert string to float", by simp [parse_time, hm]⟩
    · simp only [parse_time, hm] at he
      exact ⟨_, (Except.error.injEq _ _).mp he.symm⟩
  | some ps =>
    have hlen := mapFloats_length hm
    have hok := mapFloats_forall_some hm
    match ps, hlen with
    | [], hlen =>
      exact absurd (List.length_eq_zero.mp hlen.symm) hne
    | [p0], hlen =>
      refine ⟨⟨fun ⟨e, he⟩ => ?_, fun h => ?_⟩, fun e he => ?_⟩
      · simp [parse_time, hm] at he
      · rcases h with h4 | ⟨seg, hseg, hnone⟩
        · rw [← hlen] at h4
          simp at h4
        · exact absurd hnone (hok seg hseg)
      · simp [parse_time, hm] at he
    | [p0, p1], hlen =>
      refine ⟨⟨fun ⟨e, he⟩ => ?_, fun h => ?_⟩, fun e he => ?_⟩
      · simp [parse_time, hm] at he
      · rcases h with h4 | ⟨seg, hseg, hnone⟩
        · rw [← hlen] at h4
          simp at h4
        · exact absurd hnone (hok seg hseg)
      · simp [parse_time, hm] at he
    | [p0, p1, p2], hlen =>
      refine ⟨⟨fun ⟨e, he⟩ => ?_, fun h => ?_⟩, fun e he => ?_⟩
      · simp [parse_time, hm] at he
      · rcases h with h4 | ⟨seg, hseg, hnone⟩
        · rw [← hlen] at h4
          simp at h4
        · exact absurd hnone (hok seg hseg)
      · simp [parse_time, hm] at he
    | p0 :: p1 :: p2 :: p3 :: rest, hlen =>
      refine ⟨⟨fun _ => Or.inl ?_, fun _ => ?_⟩, fun e he => ?_⟩
      · rw [← hlen]
        simp
      · refine ⟨.valueError ("Invalid time format: " ++ s ++ ". Use hh:mm:ss, mm:ss, or ss."), ?_⟩
        simp [parse_time, hm]
      · simp only [parse_time, hm] at he
        exact ⟨_, (Except.error.injEq _ _).mp he.symm⟩

/-- Witness for C2: a five-segment input is rejected. -/
theorem C2_witness : ∃ e, parse_time "1:2:3:4" = .error e :=
  (C2_parse_time_error_iff "1:2:3:4").1.mpr (Or.inl (by decide))

/-- Model of Python `str.startswith(pat)`. -/
def startsWithChars : List Char → List Char → Bool
  | _, [] => true
  | [], _ :: _ => false
  | c :: cs, p :: ps => c = p && startsWithChars cs ps

/-- Model of Python `str.replace(pat, rep)` for a one-character pattern:
replace every occurrence of the pattern character. -/
def replaceChar (pat : Char) (rep : List Char) : List Char → List Char
  | [] => []
  | c :: cs => (if c = pat then rep else [c]) ++ replaceChar pat rep cs

/-- The escaping applied to the caption on line 163 of the source:
`.replace("'", "\\'")` followed by `.replace(":", "\\:")`. -/
def escapeCredits (cs : List Char) : List Char :=
  replaceChar ':' ['\\', ':'] (replaceChar '\'' ['\\', '\''] cs)

/-- The drawtext filter built on lines 162-169 of the source, kept
structurally (text after escaping, fixed styling, enable window). -/
structure Drawtext where
  text : List Char
  fontsize : Nat
  fontcolor : String
  xExpr : String
  yExpr : String
  enableStart : PyFloat
  enableEnd : PyFloat
deriving DecidableEq

/-- The overlay filter construction from source lines 162-169: caption
"credits: {channel} on Youtube", quote marks and colons escaped, white
36-pt text centered horizontally at 75% of frame height, enabled from
`max(0, duration - 1)` to `duration`. -/
def credits_filter (channelName : String) (duration : PyFloat) : Drawtext :=
  { text := escapeCredits ("credits: " ++ channelName ++ " on Youtube").data
    fontsize := 36
    fontcolor := "white"
    xExpr := "(w-text_w)/2"
    yExpr := "h*0.75"
    enableStart := pyMax (.finite 0) (pySub duration (.finite 1))
    enableEnd := duration }

/-- Externally visible actions of one pipeline run, in order. -/
inductive Event where
  | mkdtemp
  | writeCookieFile (path : String)
  | resolverFetch (url : String)
  | probe (enginePath : String)
  | runTrim (enginePath input : String) (start duration : PyFloat) (output : String)
  | runResize (enginePath input output : String)
  | runOverlay (enginePath input : String) (filter : Drawtext) (output : String)
  | warnOverlayDegraded
  | removeFile (path : String)
deriving DecidableEq

/-- Typed counterpart of the raise sites in `download_and_resize_clip`
(the source distinguishes them only by exception message; the spec
taxonomy names are used for the constructors):
`parseError` = a `ValueError` propagated from `parse_time` (lines 39-40);
`invalidRange` = `ValueError` "End time must be after start time" (line 44);
`fetchError` = "Failed to download video" (line 97) or
"No video file was downloaded" (line 102);
`engineUnavailable` = "FFmpeg is not available" (line 116);
`trimError` = "Failed to trim video" (line 137);
`resizeError` = "Failed to resize video" (line 156). -/
inductive PipelineError where
  | parseError (msg : String)
  | invalidRange
  | fetchError (msg : String)
  | engineUnavailable
  | trimError
  | resizeError
deriving DecidableEq

/-- Oracle outcomes of the external collaborators for one run. -/
structure Env where
  fetchOk : Bool
  uploader : Option String
  fetchFiles : List String
  probePrimary : Bool
  probeFallback : Bool
  trimOk : Bool
  resizeOk : Bool
  overlayOk : Bool
  removeFails : List String

/-- Result of one run: trace of external actions, files present in the
scratch workspace at exit, and the returned path or raised error. -/
structure RunResult where
  trace : List Event
  files : List String
  outcome : Except PipelineError String
deriving DecidableEq

/-- Abstract root of the scratch directory created by `tempfile.mkdtemp`. -/
def tempDir : String := "TMP"

/-- Model of `os.path.join` for the paths the source builds. -/
def joinPath (dir name : String) : String := dir ++ "/" ++ name

/-- Path of the materialized cookie file (source line 83). -/
def cookiesPath : String := joinPath tempDir "cookies.txt"

/-- Path of the trim-stage output (source line 120). -/
def trimmedPath : String := joinPath tempDir "trimmed.mp4"

/-- Path of the resize-stage output (source line 141). -/
def resizedPath : String := joinPath tempDir "temp_resized.mp4"

/-- Path of the overlay-stage output (source line 160). -/
def finalPath : String := joinPath tempDir "temp_final.mp4"

/-- The removal candidates of the cleanup block (source lines 185-194):
the raw download always, the trimmed and resized files only when distinct
from the final artifact. -/
def cleanupTargets (finalFile downloadedFile : String) : List String :=
  [downloadedFile]
    ++ (if trimmedPath ≠ finalFile then [trimmedPath] else [])
    ++ (if resizedPath ≠ finalFile then [resizedPath] else [])

/-- Sequential `os.path.exists`/`os.remove` over the candidates inside one
`try`: a raising removal (oracle list `fails`) aborts the rest of the
block, and the surrounding `except: pass` swallows it. -/
def removeAll (fails : List String) : List String → List String → List Event × List String
  | [], files => ([], files)
  | t :: ts, files =>
      if t ∈ files then
        if t ∈ fails then ([Event.removeFile t], files)
        else
          let r := removeAll fails ts (files.erase t)
          (Event.removeFile t :: r.1, r.2)
      else removeAll fails ts files

/-- The cleanup block of source lines 185-194. -/
def cleanup (fails : List String) (finalFile downloadedFile : String)
    (files : List String) : List Event × List String :=
  removeAll fails (cleanupTargets finalFile downloadedFile) files

/-- Source lines 118-197: trim, resize, overlay (non-fatal), cleanup,
return. -/
def stage_transcode (env : Env) (ffmpegPath downloadedFile channelName : String)
    (startTime duration : PyFloat) (ev : List Event) (files : List String) : RunResult :=
  let ev1 := ev ++ [Event.runTrim ffmpegPath downloadedFile startTime duration trimmedPath]
  if env.trimOk then
    let files1 := files ++ [trimmedPath]
    let ev2 := ev1 ++ [Event.runResize ffmpegPath trimmedPath resizedPath]
    if env.resizeOk then
      let files2 := files1 ++ [resizedPath]
      let ev3 := ev2 ++
        [Event.runOverlay ffmpegPath resizedPath (credits_filter channelName duration) finalPath]
      let branch : List Event × List String × String :=
        if env.overlayOk then (ev3, files2 ++ [finalPath], finalPath)
        else (ev3 ++ [Event.warnOverlayDegraded], files2, resizedPath)
      let cl := cleanup env.removeFails branch.2.2 downloadedFile branch.2.1
      ⟨branch.1 ++ cl.1, cl.2, .ok branch.2.2⟩
    else ⟨ev2, files1, .error .resizeError⟩
  else ⟨ev1, files, .error .trimError⟩

/-- Source lines 106-116: probe `ffmpeg -version`, then `/usr/bin/ffmpeg
-version`, raise if both fail. -/
def stage_probe (env : Env) (downloadedFile channelName : String)
    (startTime duration : PyFloat) (ev : List Event) (files : List String) : RunResult :=
  let ev1 := ev ++ [Event.probe "ffmpeg"]
  if env.probePrimary then
    stage_transcode env "ffmpeg" downloadedFile channelName startTime duration ev1 files
  else
    let ev2 := ev1 ++ [Event.probe "/usr/bin/ffmpeg"]
    if env.probeFallback then
      stage_transcode env "/usr/bin/ffmpeg" downloadedFile channelName startTime duration ev2 files
    else ⟨ev2, files, .error .engineUnavailable⟩

/-- Source lines 88-104: metadata + download (one `try`), the default
channel name, then locating the produced file by name prefix
`temp_download` among the workspace entries. -/
def stage_fetch (env : Env) (url : String) (startTime duration : PyFloat)
    (ev : List Event) (files : List String) : RunResult :=
  let ev1 := ev ++ [Event.resolverFetch url]
  if env.fetchOk then
    let channelName := env.uploader.getD "Unknown Channel"
    let files1 := files ++ env.fetchFiles.map (joinPath tempDir)
    match env.fetchFiles.filter (fun f => startsWithChars f.data "temp_download".data) with
    | [] => ⟨ev1, files1, .error (.fetchError "No video file was downloaded")⟩
    | dl :: _ =>
        stage_probe env (joinPath tempDir dl) channelName startTime duration ev1 files1
  else ⟨ev1, files, .error (.fetchError "Failed to download video")⟩

/-- Message carried by a `ValueError` raised in `parse_time`. -/
def pyErrorMsg : PyError → String
  | .valueError m => m
  | .exception m => m

/-- `download_and_resize_clip` from src/streamlit_app.py lines 23-197:
parse both bounds, reject a non-positive duration, create the scratch
directory, materialize cookies if given, then fetch, probe, transcode and
clean up.  UI-only effects (progress bar, status text) are not modeled. -/
def download_and_resize_clip (env : Env) (url startTimeStr endTimeStr : String)
    (cookiesContent : Option String) : RunResult :=
  match parse_time startTimeStr with
  | .error e => ⟨[], [], .error (.parseError (pyErrorMsg e))⟩
  | .ok startTime =>
      match parse_time endTimeStr with
      | .error e => ⟨[], [], .error (.parseError (pyErrorMsg e))⟩
      | .ok endTime =>
          let duration := pySub endTime startTime
          if pyLe duration (.finite 0) then ⟨[], [], .error .invalidRange⟩
          else
            match cookiesContent with
            | some _ =>
                stage_fetch env url startTime duration
                  [Event.mkdtemp, Event.writeCookieFile cookiesPath] [cookiesPath]
            | none => stage_fetch env url startTime duration [Event.mkdtemp] []

theorem joinPath_right_inj {dir a b : String} (h : joinPath dir a = joinPath dir b) : a = b := by
  have hd : (dir ++ "/").data ++ a.data = (dir ++ "/").data ++ b.data := by
    have h2 := congrArg String.data h
    simpa [joinPath, strData_append, List.append_assoc] using h2
  exact string_data_inj (List.append_cancel_left hd)

theorem removeAll_events {fails ts files : List String} {e : Event}
    (he : e ∈ (removeAll fails ts files).1) : ∃ t ∈ ts, e = Event.removeFile t := by
  induction ts generalizing files with
  | nil => simp [removeAll] at he
  | cons t ts ih =>
    simp only [removeAll] at he
    by_cases hmem : t ∈ files
    · rw [if_pos hmem] at he
      by_cases hf : t ∈ fails
      · rw [if_pos hf] at he
        simp only [List.mem_singleton] at he
        exact ⟨t, List.mem_cons_self t ts, he⟩
      · rw [if_neg hf] at he
        simp only [List.mem_cons] at he
        rcases he with rfl | he'
        · exact ⟨t, List.mem_cons_self t ts, rfl⟩
        · obtain ⟨t', ht', rfl⟩ := ih he'
          exact ⟨t', List.mem_cons_of_mem t ht', rfl⟩
    · rw [if_neg hmem] at he
      obtain ⟨t', ht', rfl⟩ := ih he
      exact ⟨t', List.mem_cons_of_mem t ht', rfl⟩

theorem removeAll_mem {fails ts files : List String} {p : String}
    (hp : p ∈ files) (hnt : p ∉ ts) : p ∈ (removeAll fails ts files).2 := by
  induction ts generalizing files with
  | nil => simpa [removeAll] using hp
  | cons t ts ih =>
    rw [List.mem_cons, not_or] at hnt
    simp only [removeAll]
    by_cases hmem : t ∈ files
    · rw [if_pos hmem]
      by_cases hf : t ∈ fails
      · rw [if_pos hf]
        exact hp
      · rw [if_neg hf]
        exact ih ((List.mem_erase_of_ne hnt.1).mpr hp) hnt.2
    · rw [if_neg hmem]
      exact ih hp hnt.2

theorem removeAll_head {fails ts files : List String} {t : String} (h : t ∈ files) :
    Event.removeFile t ∈ (removeAll fails (t :: ts) files).1 := by
  simp only [removeAll, if_pos h]
  by_cases hf : t ∈ fails
  · simp [hf]
  · simp [hf]

theorem cleanup_events {fails : List String} {ff dl : String} {files : List String} {e : Event}
    (he : e ∈ (cleanup fails ff dl files).1) :
    ∃ t ∈ cleanupTargets ff dl, e = Event.removeFile t :=
  removeAll_events he

theorem final_not_mem_cleanupTargets {ff dl : String} (hdl : ff ≠ dl) :
    ff ∉ cleanupTargets ff dl := by
  intro h
  simp only [cleanupTargets, List.mem_append] at h
  rcases h with (h | h) | h
  · exact hdl (List.mem_singleton.mp h)
  · by_cases ht : trimmedPath ≠ ff
    · rw [if_pos ht] at h
      exact ht (List.mem_singleton.mp h).symm
    · rw [if_neg ht] at h
      exact absurd h (List.not_mem_nil ff)
  · by_cases hr : resizedPath ≠ ff
    · rw [if_pos hr] at h
      exact hr (List.mem_singleton.mp h).symm
    · rw [if_neg hr] at h
      exact absurd h (List.not_mem_nil ff)

theorem cleanup_preserves_final {fails : List String} {ff dl : String} {files : List String}
    (hmem : ff ∈ files) (hdl : ff ≠ dl) : ff ∈ (cleanup fails ff dl files).2 :=
  removeAll_mem hmem (final_not_mem_cleanupTargets hdl)

theorem cleanup_no_remove_final {fails : List String} {ff dl : String} {files : List String}
    (hdl : ff ≠ dl) : Event.removeFile ff ∉ (cleanup fails ff dl files).1 := by
  intro h
  obtain ⟨t, ht, hEq⟩ := cleanup_events h
  have hft : ff = t := by
    injection hEq
  exact final_not_mem_cleanupTargets hdl (hft ▸ ht)

theorem cleanup_preserves_other {fails : List String} {ff dl : String} {files : List String}
    {p : String} (hmem : p ∈ files) (h1 : p ≠ dl) (h2 : p ≠ trimmedPath)
    (h3 : p ≠ resizedPath) : p ∈ (cleanup fails ff dl files).2 := by
  refine removeAll_mem hmem ?_
  intro h
  simp only [cleanupTargets, List.mem_append] at h
  rcases h with (h | h) | h
  · exact h1 (List.mem_singleton.mp h)
  · split at h
    · exact h2 (List.mem_singleton.mp h)
    · exact absurd h (List.not_mem_nil p)
  · split at h
    · exact h3 (List.mem_singleton.mp h)
    · exact absurd h (List.not_mem_nil p)

theorem cleanup_count_warn (fails : List String) (ff dl : String) (files : List String) :
    (cleanup fails ff dl files).1.count Event.warnOverlayDegraded = 0 := by
  rw [List.count_eq_zero]
  intro h
  obtain ⟨t, _, hEq⟩ := cleanup_events h
  cases hEq

theorem cleanup_removes_downloaded {fails : List String} {ff dl : String} {files : List String}
    (h : dl ∈ files) : Event.removeFile dl ∈ (cleanup fails ff dl files).1 :=
  removeAll_head h

/-- Events recorded before the fetch stage, by presence of a credential. -/
def preEvents : Option String → List Event
  | some _ => [Event.mkdtemp, Event.writeCookieFile cookiesPath]
  | none => [Event.mkdtemp]

/-- Workspace files present before the fetch stage. -/
def preFiles : Option String → List String
  | some _ => [cookiesPath]
  | none => []

theorem run_reaches_fetch (env : Env) (url s e : String) (cookies : Option String)
    {st et : PyFloat} (hs : parse_time s = .ok st) (he : parse_time e = .ok et)
    (hd : pyLe (pySub et st) (.finite 0) = false) :
    download_and_resize_clip env url s e cookies =
      stage_fetch env url st (pySub et st) (preEvents cookies) (preFiles cookies) := by
  cases cookies <;> simp [download_and_resize_clip, hs, he, hd, preEvents, preFiles]

theorem fetch_reaches_probe (env : Env) (url : String) (st du : PyFloat)
    (ev : List Event) (files : List String) {d : String} {ds : List String}
    (hf : env.fetchOk = true)
    (hdl : env.fetchFiles.filter (fun f => startsWithChars f.data "temp_download".data)
      = d :: ds) :
    stage_fetch env url st du ev files =
      stage_probe env (joinPath tempDir d) (env.uploader.getD "Unknown Channel") st du
        (ev ++ [Event.resolverFetch url]) (files ++ env.fetchFiles.map (joinPath tempDir)) := by
  simp [stage_fetch, hf, hdl]

theorem probe_reaches_transcode (env : Env) (dl ch : String) (st du : PyFloat)
    (ev : List Event) (files : List String)
    (hp : env.probePrimary = true ∨ env.probeFallback = true) :
    ∃ fp probes, (probes = [Event.probe "ffmpeg"] ∨
        probes = [Event.probe "ffmpeg", Event.probe "/usr/bin/ffmpeg"]) ∧
      stage_probe env dl ch st du ev files =
        stage_transcode env fp dl ch st du (ev ++ probes) files := by
  by_cases h1 : env.probePrimary = true
  · exact ⟨"ffmpeg", [Event.probe "ffmpeg"], Or.inl rfl, by simp [stage_probe, h1]⟩
  · have h1f : env.probePrimary = false := by
      cases hb : env.probePrimary
      · rfl
      · exact absurd hb h1
    have h2 : env.probeFallback = true := hp.resolve_left h1
    refine ⟨"/usr/bin/ffmpeg", [Event.probe "ffmpeg", Event.probe "/usr/bin/ffmpeg"],
      Or.inr rfl, ?_⟩
    simp [stage_probe, h1f, h2]

theorem stage_transcode_all_ok (env : Env) (fp dl ch : String) (st du : PyFloat)
    (ev : List Event) (files : List String)
    (ht : env.trimOk = true) (hr : env.resizeOk = true) (ho : env.overlayOk = true) :
    stage_transcode env fp dl ch st du ev files =
      ⟨(ev ++ [Event.runTrim fp dl st du trimmedPath,
          Event.runResize fp trimmedPath resizedPath,
          Event.runOverlay fp resizedPath (credits_filter ch du) finalPath]) ++
        (cleanup env.removeFails finalPath dl
          (files ++ [trimmedPath, resizedPath, finalPath])).1,
        (cleanup env.removeFails finalPath dl
          (files ++ [trimmedPath, resizedPath, finalPath])).2,
        .ok finalPath⟩ := by
  simp [stage_transcode, ht, hr, ho]

theorem stage_transcode_degraded (env : Env) (fp dl ch : String) (st du : PyFloat)
    (ev : List Event) (files : List String)
    (ht : env.trimOk = true) (hr : env.resizeOk = true) (ho : env.overlayOk = false) :
    stage_transcode env fp dl ch st du ev files =
      ⟨(ev ++ [Event.runTrim fp dl st du trimmedPath,
          Event.runResize fp trimmedPath resizedPath,
          Event.runOverlay fp resizedPath (credits_filter ch du) finalPath,
          Event.warnOverlayDegraded]) ++
        (cleanup env.removeFails resizedPath dl (files ++ [trimmedPath, resizedPath])).1,
        (cleanup env.removeFails resizedPath dl (files ++ [trimmedPath, resizedPath])).2,
        .ok resizedPath⟩ := by
  simp [stage_transcode, ht, hr, ho]

theorem stage_transcode_outcome_ne_engine (env : Env) (fp dl ch : String) (st du : PyFloat)
    (ev : List Event) (files : List String) :
    (stage_transcode env fp dl ch st du ev files).outcome ≠ .error .engineUnavailable := by
  cases ht : env.trimOk <;> cases hr : env.resizeOk <;> cases ho : env.overlayOk <;>
    simp [stage_transcode, ht, hr, ho]

theorem head_filter_starts {env : Env} {d : String} {ds : List String}
    (hdl : env.fetchFiles.filter (fun f => startsWithChars f.data "temp_download".data)
      = d :: ds) :
    startsWithChars d.data "temp_download".data = true := by
  have hmem : d ∈ env.fetchFiles.filter
      (fun f => startsWithChars f.data "temp_download".data) := by
    rw [hdl]
    exact List.mem_cons_self d ds
  exact (List.mem_filter.mp hmem).2

theorem head_filter_mem {env : Env} {d : String} {ds : List String}
    (hdl : env.fetchFiles.filter (fun f => startsWithChars f.data "temp_download".data)
      = d :: ds) :
    d ∈ env.fetchFiles := by
  have hmem : d ∈ env.fetchFiles.filter
      (fun f => startsWithChars f.data "temp_download".data) := by
    rw [hdl]
    exact List.mem_cons_self d ds
  exact (List.mem_filter.mp hmem).1

theorem joined_ne_downloaded {d n : String}
    (hd : startsWithChars d.data "temp_download".data = true)
    (hn : startsWithChars n.data "temp_download".data = false) :
    joinPath tempDir n ≠ joinPath tempDir d := by
  intro h
  have hnd : n = d := joinPath_right_inj h
  subst hnd
  rw [hd] at hn
  cases hn

theorem finalPath_ne_downloaded {d : String}
    (hd : startsWithChars d.data "temp_download".data = true) :
    finalPath ≠ joinPath tempDir d :=
  joined_ne_downloaded hd (by decide)

theorem resizedPath_ne_downloaded {d : String}
    (hd : startsWithChars d.data "temp_download".data = true) :
    resizedPath ≠ joinPath tempDir d :=
  joined_ne_downloaded hd (by decide)

theorem cookiesPath_ne_downloaded {d : String}
    (hd : startsWithChars d.data "temp_download".data = true) :
    cookiesPath ≠ joinPath tempDir d :=
  joined_ne_downloaded hd (by decide)

/-- The artifact kept by a run that reaches cleanup: the overlay output on
overlay success, otherwise the resized file. -/
def finalOf (env : Env) : String := if env.overlayOk then finalPath else resizedPath

/-- Transcode-engine related events: the availability probe and the three
transcode subprocess invocations. -/
def Event.isEngineStage : Event → Bool
  | .probe _ => true
  | .runTrim _ _ _ _ _ => true
  | .runResize _ _ _ => true
  | .runOverlay _ _ _ _ => true
  | _ => false

/-- Transcode subprocess invocations (trim, resize, overlay), excluding the
availability probe. -/
def Event.isRunStage : Event → Bool
  | .runTrim _ _ _ _ _ => true
  | .runResize _ _ _ => true
  | .runOverlay _ _ _ _ => true
  | _ => false

/-- Oracle environment where every external collaborator succeeds. -/
def envAllOk : Env :=
  { fetchOk := true, uploader := some "Alice", fetchFiles := ["temp_download.webm"],
    probePrimary := true, probeFallback := true, trimOk := true, resizeOk := true,
    overlayOk := true, removeFails := [] }

/-- Oracle environment where the resolver fetch fails. -/
def envNoFetch : Env :=
  { envAllOk with
    fetchOk := false, uploader := none, fetchFiles := [], probePrimary := false,
    probeFallback := false, trimOk := false, resizeOk := false, overlayOk := false }

/-- Oracle environment where the trim subprocess exits non-zero. -/
def envTrimFail : Env :=
  { envAllOk with trimOk := false, resizeOk := false, overlayOk := false }

/-- Oracle environment where only the overlay subprocess fails. -/
def envOverlayFail : Env := { envAllOk with overlayOk := false }

/-- Oracle environment where both engine probes fail. -/
def envNoProbe : Env :=
  { envAllOk with probePrimary := false, probeFallback := false }

/-- Oracle environment where the fetch reports success but produces no
file matching the download-output prefix. -/
def envNoFile : Env := { envAllOk with fetchFiles := [] }

/-- Counterexample to C3 as stated: start = end = "inf" parses to bounds
with end.seconds <= start.seconds (inf <= inf holds), yet the computed
duration inf - inf is NaN, the non-positive check does not fire, and the
run proceeds to create the workspace and invoke the resolver instead of
raising InvalidRangeError. -/
theorem C3_counterexample :
    parse_time "inf" = .ok PyFloat.posInf ∧
    pyLe PyFloat.posInf PyFloat.posInf = true ∧
    download_and_resize_clip envNoFetch "u" "inf" "inf" none =
      ⟨[Event.mkdtemp, Event.resolverFetch "u"], [],
        .error (.fetchError "Failed to download video")⟩ := by
  refine ⟨by with_unfolding_all rfl, rfl, by with_unfolding_all rfl⟩

/-- C3 (amended): whenever the computed duration end - start compares <= 0
(for bounds whose difference is not NaN this is exactly end <= start; an
infinite equal pair yields a NaN duration and escapes the check), the
pipeline rejects with InvalidRangeError and an empty trace: no workspace
file is created and neither the resolver nor the engine is invoked. -/
theorem C3_invalid_range_rejected (env : Env) (url s e : String) (cookies : Option String)
    (st et : PyFloat) (hs : parse_time s = .ok st) (he : parse_time e = .ok et)
    (hd : pyLe (pySub et st) (.finite 0) = true) :
    download_and_resize_clip env url s e cookies = ⟨[], [], .error .invalidRange⟩ := by
  simp [download_and_resize_clip, hs, he, hd]

/-- Witness for C3: a reversed finite range is rejected before any event. -/
theorem C3_witness :
    download_and_resize_clip envAllOk "u" "2:00" "1:30" none =
      ⟨[], [], .error .invalidRange⟩ :=
  C3_invalid_range_rejected envAllOk "u" "2:00" "1:30" none (.finite 120) (.finite 90)
    (by with_unfolding_all rfl) (by with_unfolding_all rfl) (by with_unfolding_all rfl)

/-- C4: if only the overlay subprocess fails, the run still succeeds, the
returned path is exactly the resize-stage artifact, and exactly one
OverlayDegraded warning appears in the trace. -/
theorem C4_overlay_degraded_fallback (env : Env) (url s e : String) (cookies : Option String)
    (st et : PyFloat) (d : String) (ds : List String)
    (hs : parse_time s = .ok st) (he : parse_time e = .ok et)
    (hd : pyLe (pySub et st) (.finite 0) = false)
    (hf : env.fetchOk = true)
    (hdl : env.fetchFiles.filter (fun f => startsWithChars f.data "temp_download".data)
      = d :: ds)
    (hp : env.probePrimary = true ∨ env.probeFallback = true)
    (ht : env.trimOk = true) (hr : env.resizeOk = true) (ho : env.overlayOk = false) :
    (download_and_resize_clip env url s e cookies).outcome = .ok resizedPath ∧
    (download_and_resize_clip env url s e cookies).trace.count Event.warnOverlayDegraded
      = 1 := by
  rw [run_reaches_fetch env url s e cookies hs he hd,
    fetch_reaches_probe env url st (pySub et st) _ _ hf hdl]
  obtain ⟨fp, probes, hps, heq⟩ :=
    probe_reaches_transcode env (joinPath tempDir d) (env.uploader.getD "Unknown Channel")
      st (pySub et st) _ _ hp
  rw [heq, stage_transcode_degraded env fp _ _ st (pySub et st) _ _ ht hr ho]
  refine ⟨rfl, ?_⟩
  simp only [List.count_append, cleanup_count_warn]
  rcases hps with rfl | rfl <;> cases cookies <;>
    simp [preEvents, List.count_append, List.count_cons, List.count_nil, List.count_singleton]

/-- Witness for C4: with every stage succeeding except overlay, the run
returns the resized artifact with exactly one degradation warning. -/
theorem C4_witness :
    (download_and_resize_clip envOverlayFail "u" "1:30" "2:15" none).outcome
      = .ok resizedPath ∧
    (download_and_resize_clip envOverlayFail "u" "1:30" "2:15" none).trace.count
      Event.warnOverlayDegraded = 1 :=
  C4_overlay_degraded_fallback envOverlayFail "u" "1:30" "2:15" none
    (.finite 90) (.finite 135) "temp_download.webm" []
    (by with_unfolding_all rfl) (by with_unfolding_all rfl) (by with_unfolding_all rfl)
    rfl (by decide) (Or.inl rfl) rfl rfl rfl

/-- Counterexample to C5 as stated: when the trim stage fails, the run
aborts immediately with no removeFile event in the trace and the raw
download left in the workspace; the cleanup step does not run on this
fatal-failure path (there is no try/finally around the stages). -/
theorem C5_counterexample :
    download_and_resize_clip envTrimFail "u" "0" "10" none =
      ⟨[Event.mkdtemp, Event.resolverFetch "u", Event.probe "ffmpeg",
        Event.runTrim "ffmpeg" "TMP/temp_download.webm" (.finite 0) (.finite 10)
          "TMP/trimmed.mp4"],
        ["TMP/temp_download.webm"], .error .trimError⟩ := by
  with_unfolding_all rfl

/-- C5 (amended): the cleanup step runs exactly on the runs that survive
the trim and resize stages (overlay success or failure both included): on
such runs a removeFile event for the raw download is recorded and the run
returns the kept artifact; fatal stage failures propagate without running
cleanup (see the counterexample). -/
theorem C5_cleanup_after_transcode (env : Env) (url s e : String) (cookies : Option String)
    (st et : PyFloat) (d : String) (ds : List String)
    (hs : parse_time s = .ok st) (he : parse_time e = .ok et)
    (hd : pyLe (pySub et st) (.finite 0) = false)
    (hf : env.fetchOk = true)
    (hdl : env.fetchFiles.filter (fun f => startsWithChars f.data "temp_download".data)
      = d :: ds)
    (hp : env.probePrimary = true ∨ env.probeFallback = true)
    (ht : env.trimOk = true) (hr : env.resizeOk = true) :
    Event.removeFile (joinPath tempDir d)
      ∈ (download_and_resize_clip env url s e cookies).trace ∧
    (download_and_resize_clip env url s e cookies).outcome = .ok (finalOf env) := by
  rw [run_reaches_fetch env url s e cookies hs he hd,
    fetch_reaches_probe env url st (pySub et st) _ _ hf hdl]
  obtain ⟨fp, probes, hps, heq⟩ :=
    probe_reaches_transcode env (joinPath tempDir d) (env.uploader.getD "Unknown Channel")
      st (pySub et st) _ _ hp
  rw [heq]
  have hdlmem : joinPath tempDir d ∈
      (preFiles cookies ++ env.fetchFiles.map (joinPath tempDir)) :=
    List.mem_append_right _ (List.mem_map_of_mem (joinPath tempDir) (head_filter_mem hdl))
  cases ho : env.overlayOk with
  | true =>
    rw [stage_transcode_all_ok env fp _ _ st (pySub et st) _ _ ht hr ho]
    constructor
    · refine List.mem_append_right _ (cleanup_removes_downloaded ?_)
      exact List.mem_append_left _ hdlmem
    · simp [finalOf, ho]
  | false =>
    rw [stage_transcode_degraded env fp _ _ st (pySub et st) _ _ ht hr ho]
    constructor
    · refine List.mem_append_right _ (cleanup_removes_downloaded ?_)
      exact List.mem_append_left _ hdlmem
    · simp [finalOf, ho]

/-- Witness for C5: on a fully successful run the raw download is removed
by cleanup and the overlay output is returned. -/
theorem C5_witness :
    Event.removeFile (joinPath tempDir "temp_download.webm")
      ∈ (download_and_resize_clip envAllOk "u" "0" "10" none).trace ∧
    (download_and_resize_clip envAllOk "u" "0" "10" none).outcome = .ok (finalOf envAllOk) :=
  C5_cleanup_after_transcode envAllOk "u" "0" "10" none (.finite 0) (.finite 10)
    "temp_download.webm" []
    (by with_unfolding_all rfl) (by with_unfolding_all rfl) (by with_unfolding_all rfl)
    rfl (by decide) (Or.inl rfl) rfl rfl

/-- Counterexample to C6 as stated: cleanup is claimed to remove every file
under the workspace root except the kept artifact, including a materialized
credential/cookie file; but on a fully successful run with cookies the
cookie file survives cleanup and is still in the workspace next to the kept
final artifact. -/
theorem C6_counterexample :
    (download_and_resize_clip envAllOk "u" "0" "10" (some "COOKIES")).files =
      [cookiesPath, finalPath] ∧
    cookiesPath ≠ finalPath ∧
    (download_and_resize_clip envAllOk "u" "0" "10" (some "COOKIES")).outcome =
      .ok finalPath := by
  refine ⟨by with_unfolding_all rfl, by decide, by with_unfolding_all rfl⟩

/-- C6 (amended): on every run that reaches cleanup, cleanup attempts to
remove only the raw download and the trimmed and resized intermediates,
skipping the kept final artifact: the kept artifact is never the target of
a removeFile event, it is still present in the workspace afterwards, and
the run returns its path even when removals fail (failures are swallowed);
the cookie file, when one was written, is not removed and also survives. -/
theorem C6_cleanup_scope (env : Env) (url s e : String) (cookies : Option String)
    (st et : PyFloat) (d : String) (ds : List String)
    (hs : parse_time s = .ok st) (he : parse_time e = .ok et)
    (hd : pyLe (pySub et st) (.finite 0) = false)
    (hf : env.fetchOk = true)
    (hdl : env.fetchFiles.filter (fun f => startsWithChars f.data "temp_download".data)
      = d :: ds)
    (hp : env.probePrimary = true ∨ env.probeFallback = true)
    (ht : env.trimOk = true) (hr : env.resizeOk = true) :
    (download_and_resize_clip env url s e cookies).outcome = .ok (finalOf env) ∧
    finalOf env ∈ (download_and_resize_clip env url s e cookies).files ∧
    Event.removeFile (finalOf env) ∉ (download_and_resize_clip env url s e cookies).trace ∧
    (cookies.isSome = true →
      cookiesPath ∈ (download_and_resize_clip env url s e cookies).files) := by
  rw [run_reaches_fetch env url s e cookies hs he hd,
    fetch_reaches_probe env url st (pySub et st) _ _ hf hdl]
  obtain ⟨fp, probes, hps, heq⟩ :=
    probe_reaches_transcode env (joinPath tempDir d) (env.uploader.getD "Unknown Channel")
      st (pySub et st) _ _ hp
  rw [heq]
  have hstarts := head_filter_starts hdl
  have hck : cookies.isSome = true → cookiesPath ∈
      (preFiles cookies ++ env.fetchFiles.map (joinPath tempDir)) := by
    intro hsome
    cases cookies with
    | none => cases hsome
    | some ck =>
        exact List.mem_append_left _ (List.mem_singleton.mpr rfl)
  cases ho : env.overlayOk with
  | true =>
    rw [stage_transcode_all_ok env fp _ _ st (pySub et st) _ _ ht hr ho]
    have hfinal : finalOf env = finalPath := by simp [finalOf, ho]
    rw [hfinal]
    have hne : finalPath ≠ joinPath tempDir d := finalPath_ne_downloaded hstarts
    refine ⟨rfl, ?_, ?_, ?_⟩
    · refine cleanup_preserves_final ?_ hne
      refine List.mem_append_right _ ?_
      simp
    · intro hmem
      rcases List.mem_append.mp hmem with h | h
      · rcases hps with rfl | rfl <;> cases cookies <;> simp [preEvents] at h
      · exact cleanup_no_remove_final hne h
    · intro hsome
      refine cleanup_preserves_other ?_ (cookiesPath_ne_downloaded hstarts)
        (by decide) (by decide)
      exact List.mem_append_left _ (hck hsome)
  | false =>
    rw [stage_transcode_degraded env fp _ _ st (pySub et st) _ _ ht hr ho]
    have hfinal : finalOf env = resizedPath := by simp [finalOf, ho]
    rw [hfinal]
    have hne : resizedPath ≠ joinPath tempDir d := resizedPath_ne_downloaded hstarts
    refine ⟨rfl, ?_, ?_, ?_⟩
    · refine cleanup_preserves_final ?_ hne
      refine List.mem_append_right _ ?_
      simp
    · intro hmem
      rcases List.mem_append.mp hmem with h | h
      · rcases hps with rfl | rfl <;> cases cookies <;> simp [preEvents] at h
      · exact cleanup_no_remove_final hne h
    · intro hsome
      refine cleanup_preserves_other ?_ (cookiesPath_ne_downloaded hstarts)
        (by decide) (by decide)
      exact List.mem_append_left _ (hck hsome)

/-- Witness for C6: on a fully successful run with cookies, the final
artifact is returned, survives cleanup, is never a removal target, and the
cookie file also survives. -/
theorem C6_witness :
    (download_and_resize_clip envAllOk "u" "0" "10" (some "COOKIES")).outcome
      = .ok (finalOf envAllOk) ∧
    finalOf envAllOk ∈ (download_and_resize_clip envAllOk "u" "0" "10" (some "COOKIES")).files ∧
    Event.removeFile (finalOf envAllOk)
      ∉ (download_and_resize_clip envAllOk "u" "0" "10" (some "COOKIES")).trace ∧
    ((some "COOKIES" : Option String).isSome = true →
      cookiesPath ∈ (download_and_resize_clip envAllOk "u" "0" "10" (some "COOKIES")).files) :=
  C6_cleanup_scope envAllOk "u" "0" "10" (some "COOKIES") (.finite 0) (.finite 10)
    "temp_download.webm" []
    (by with_unfolding_all rfl) (by with_unfolding_all rfl) (by with_unfolding_all rfl)
    rfl (by decide) (Or.inl rfl) rfl rfl

/-- C7: if the fetch reports success but zero workspace files match the
download-output prefix `temp_download`, the run fails with
FetchError("No video file was downloaded") and no engine stage (probe,
trim, resize or overlay) appears in the trace. -/
theorem C7_no_file_fetch_error (env : Env) (url s e : String) (cookies : Option String)
    (st et : PyFloat)
    (hs : parse_time s = .ok st) (he : parse_time e = .ok et)
    (hd : pyLe (pySub et st) (.finite 0) = false)
    (hf : env.fetchOk = true)
    (hdl : env.fetchFiles.filter (fun f => startsWithChars f.data "temp_download".data)
      = []) :
    (download_and_resize_clip env url s e cookies).outcome =
      .error (.fetchError "No video file was downloaded") ∧
    (download_and_resize_clip env url s e cookies).trace.all
      (fun ev => !ev.isEngineStage) = true := by
  rw [run_reaches_fetch env url s e cookies hs he hd]
  simp only [stage_fetch, hf, if_true, hdl]
  refine ⟨trivial, ?_⟩
  cases cookies <;> simp [preEvents, Event.isEngineStage]

/-- Witness for C7: a successful fetch that produced no matching file. -/
theorem C7_witness :
    (download_and_resize_clip envNoFile "u" "0" "10" none).outcome =
      .error (.fetchError "No video file was downloaded") ∧
    (download_and_resize_clip envNoFile "u" "0" "10" none).trace.all
      (fun ev => !ev.isEngineStage) = true :=
  C7_no_file_fetch_error envNoFile "u" "0" "10" none (.finite 0) (.finite 10)
    (by with_unfolding_all rfl) (by with_unfolding_all rfl) (by with_unfolding_all rfl)
    rfl (by decide)

/-- C8: the availability check probes the primary name "ffmpeg" and then
the fallback absolute path "/usr/bin/ffmpeg"; when both probes fail the
run fails with EngineUnavailableError before any trim/resize/overlay
subprocess is executed, and when at least one probe succeeds the run never
fails with EngineUnavailableError. -/
theorem C8_engine_probe (env : Env) (url s e : String) (cookies : Option String)
    (st et : PyFloat) (d : String) (ds : List String)
    (hs : parse_time s = .ok st) (he : parse_time e = .ok et)
    (hd : pyLe (pySub et st) (.finite 0) = false)
    (hf : env.fetchOk = true)
    (hdl : env.fetchFiles.filter (fun f => startsWithChars f.data "temp_download".data)
      = d :: ds) :
    (env.probePrimary = false → env.probeFallback = false →
      (download_and_resize_clip env url s e cookies).trace =
        preEvents cookies ++ [Event.resolverFetch url, Event.probe "ffmpeg",
          Event.probe "/usr/bin/ffmpeg"] ∧
      (download_and_resize_clip env url s e cookies).outcome =
        .error .engineUnavailable ∧
      (download_and_resize_clip env url s e cookies).trace.all
        (fun ev => !ev.isRunStage) = true) ∧
    (env.probePrimary = true ∨ env.probeFallback = true →
      (download_and_resize_clip env url s e cookies).outcome ≠
        .error .engineUnavailable) := by
  rw [run_reaches_fetch env url s e cookies hs he hd,
    fetch_reaches_probe env url st (pySub et st) _ _ hf hdl]
  constructor
  · intro h1 h2
    simp only [stage_probe, h1, h2, Bool.false_eq_true, if_false]
    refine ⟨by simp, trivial, ?_⟩
    cases cookies <;> simp [preEvents, Event.isRunStage]
  · intro hp
    obtain ⟨fp, probes, hps, heq⟩ :=
      probe_reaches_transcode env (joinPath tempDir d) (env.uploader.getD "Unknown Channel")
        st (pySub et st) _ _ hp
    rw [heq]
    exact stage_transcode_outcome_ne_engine env fp _ _ st (pySub et st) _ _

/-- Witness for C8: with both probes failing, the run stops with
EngineUnavailableError right after the two probe events. -/
theorem C8_witness :
    (download_and_resize_clip envNoProbe "u" "0" "10" none).trace =
      preEvents none ++ [Event.resolverFetch "u", Event.probe "ffmpeg",
        Event.probe "/usr/bin/ffmpeg"] ∧
    (download_and_resize_clip envNoProbe "u" "0" "10" none).outcome =
      .error .engineUnavailable ∧
    (download_and_resize_clip envNoProbe "u" "0" "10" none).trace.all
      (fun ev => !ev.isRunStage) = true :=
  (C8_engine_probe envNoProbe "u" "0" "10" none (.finite 0) (.finite 10)
    "temp_download.webm" []
    (by with_unfolding_all rfl) (by with_unfolding_all rfl) (by with_unfolding_all rfl)
    rfl (by decide)).1 rfl rfl

/-- Characters significant to the drawtext mini-language that the source
escapes: quote marks and colons. -/
def specialChar (c : Char) : Bool := c = ':' || c = '\''

/-- Scans a character list tracking the previous character: every special
character must be immediately preceded by a backslash. -/
def escapedOkFrom : Option Char → List Char → Bool
  | _, [] => true
  | prev, c :: cs =>
      (!(specialChar c) || (prev == some '\\')) && escapedOkFrom (some c) cs

/-- Every quote mark and colon in the list is immediately preceded by a
backslash. -/
def escapedOk (cs : List Char) : Bool := escapedOkFrom none cs

theorem replaceChar_append (pat : Char) (rep : List Char) (a b : List Char) :
    replaceChar pat rep (a ++ b) = replaceChar pat rep a ++ replaceChar pat rep b := by
  induction a with
  | nil => rfl
  | cons c cs ih => simp [replaceChar, ih]

theorem escapedOkFrom_escapeCredits (cs : List Char) :
    ∀ prev, escapedOkFrom prev (escapeCredits cs) = true := by
  induction cs with
  | nil =>
    intro prev
    rfl
  | cons c cs ih =>
    intro prev
    by_cases hq : c = '\''
    · subst hq
      have hshape : escapeCredits ('\'' :: cs) = '\\' :: '\'' :: escapeCredits cs := by
        simp [escapeCredits, replaceChar, replaceChar_append]
      rw [hshape]
      have h1 : specialChar '\\' = false := rfl
      have h2 : specialChar '\'' = true := rfl
      simp [escapedOkFrom, h1, h2, ih]
    · by_cases hcol : c = ':'
      · subst hcol
        have hshape : escapeCredits (':' :: cs) = '\\' :: ':' :: escapeCredits cs := by
          simp [escapeCredits, replaceChar, replaceChar_append]
        rw [hshape]
        have h1 : specialChar '\\' = false := rfl
        have h2 : specialChar ':' = true := rfl
        simp [escapedOkFrom, h1, h2, ih]
      · have hshape : escapeCredits (c :: cs) = c :: escapeCredits cs := by
          simp [escapeCredits, replaceChar, replaceChar_append, hq, hcol]
        rw [hshape]
        have h3 : specialChar c = false := by
          simp [specialChar, hq, hcol]
        simp [escapedOkFrom, h3, ih]

/-- C9: for every uploader name and duration the overlay stage builds the
caption "credits: {uploader} on Youtube" with every quote mark and colon of
the escaped text immediately preceded by a backslash, enables it exactly on
the window from max(0, duration - 1) to duration, and renders white 36-pt
text centered horizontally at 75% of frame height. -/
theorem C9_overlay_caption (name : String) (d : PyFloat) :
    (credits_filter name d).text =
      escapeCredits ("credits: " ++ name ++ " on Youtube").data ∧
    escapedOk (credits_filter name d).text = true ∧
    (credits_filter name d).enableStart = pyMax (.finite 0) (pySub d (.finite 1)) ∧
    (credits_filter name d).enableEnd = d ∧
    (credits_filter name d).fontcolor = "white" ∧
    (credits_filter name d).fontsize = 36 ∧
    (credits_filter name d).xExpr = "(w-text_w)/2" ∧
    (credits_filter name d).yExpr = "h*0.75" :=
  ⟨rfl, escapedOkFrom_escapeCredits ("credits: " ++ name ++ " on Youtube").data none,
    rfl, rfl, rfl, rfl, rfl, rfl⟩

/-- Witness for C9: a concrete uploader name containing a colon, with a
45-second clip: the caption window is [44, 45] and the escape check holds. -/
theorem C9_witness :
    escapedOk (credits_filter "MrBeast: Gaming" (.finite 45)).text = true ∧
    (credits_filter "MrBeast: Gaming" (.finite 45)).enableStart = .finite 44 ∧
    (credits_filter "MrBeast: Gaming" (.finite 45)).enableEnd = .finite 45 :=
  ⟨(C9_overlay_caption "MrBeast: Gaming" (.finite 45)).2.1,
    by with_unfolding_all rfl, rfl⟩

/-- C10 (implicit): the parser accepts every host-float form, including
"1e2" (= 100.0), "inf" and "nan"; with a start time of "nan" the computed
duration is NaN, NaN <= 0 is false, so the request passes validation and
the pipeline proceeds to external I/O (workspace creation and resolver
fetch). -/
theorem C10_host_float_forms :
    parse_time "1e2" = .ok (.finite 100) ∧
    parse_time "inf" = .ok .posInf ∧
    parse_time "nan" = .ok .nan ∧
    pySub (.finite 5) .nan = .nan ∧
    pyLe .nan (.finite 0) = false ∧
    download_and_resize_clip envNoFetch "u" "nan" "5" none =
      ⟨[Event.mkdtemp, Event.resolverFetch "u"], [],
        .error (.fetchError "Failed to download video")⟩ :=
  ⟨by with_unfolding_all rfl, by with_unfolding_all rfl, by with_unfolding_all rfl,
    rfl, rfl, by with_unfolding_all rfl⟩
